import Mathlib

/-!
Verification of the Authorization Server core of the core-exchange OIDC
reference deployment (`apps/auth/src/index.ts` together with the validation
schemas of `apps/shared/src/validation.ts`).

Strings that the server inspects character by character (passwords, e-mails,
interaction uids, error messages) are modelled as `List Char`; opaque
configuration values (client ids, redirect URIs, scope strings) are modelled
as `String`.  JavaScript's `toLowerCase` is modelled on the ASCII range, which
covers all data the server stores and every property stated below.
-/

namespace CoreExchange

/-! ### JavaScript string primitives -/

/-- Character-level model of `String.prototype.padEnd`: pad on the right with
`pad` up to `targetLength` (no-op when the string is already that long). -/
def padEnd (s : List Char) (targetLength : Nat) (pad : Char) : List Char :=
  s ++ List.replicate (targetLength - s.length) pad

/-- The ASCII upper-case/lower-case letter pairs. -/
def upperLower : List (Char × Char) :=
  [('A', 'a'), ('B', 'b'), ('C', 'c'), ('D', 'd'), ('E', 'e'), ('F', 'f'),
   ('G', 'g'), ('H', 'h'), ('I', 'i'), ('J', 'j'), ('K', 'k'), ('L', 'l'),
   ('M', 'm'), ('N', 'n'), ('O', 'o'), ('P', 'p'), ('Q', 'q'), ('R', 'r'),
   ('S', 's'), ('T', 't'), ('U', 'u'), ('V', 'v'), ('W', 'w'), ('X', 'x'),
   ('Y', 'y'), ('Z', 'z')]

/-- ASCII model of `String.prototype.toLowerCase` on a single character:
map an upper-case letter to its lower-case pair, leave all else unchanged. -/
def jsToLower (c : Char) : Char :=
  match upperLower.find? (fun p => p.1 == c) with
  | some p => p.2
  | none => c

/-- ASCII model of `String.prototype.toLowerCase`. -/
def lowerChars (s : List Char) : List Char :=
  s.map jsToLower

/-- Model of `String.prototype.trim`: strip whitespace from both ends. -/
def trimChars (s : List Char) : List Char :=
  ((s.dropWhile Char.isWhitespace).reverse.dropWhile Char.isWhitespace).reverse

/-- Anchored match: does `l` start with `pat`? -/
def startsWith : List Char → List Char → Bool
  | _, [] => true
  | [], _ :: _ => false
  | a :: as, b :: bs => a == b && startsWith as bs

/-- Model of `String.prototype.includes`: does `hay` contain `pat` as a
contiguous substring? -/
def hasSub (pat : List Char) : List Char → Bool
  | [] => pat.isEmpty
  | c :: rest => startsWith (c :: rest) pat || hasSub pat rest

/-- Model of `String.prototype.split` with a single-character separator. -/
def splitOnChar (sep : Char) : List Char → List (List Char)
  | [] => [[]]
  | c :: rest =>
    if c == sep then [] :: splitOnChar sep rest
    else
      match splitOnChar sep rest with
      | [] => [[c]]
      | h :: t => (c :: h) :: t

/-- Rejoin the pieces produced by `splitOnChar` (its left inverse). -/
def joinSep (sep : Char) : List (List Char) → List Char
  | [] => []
  | [p] => p
  | p :: q :: t => p ++ sep :: joinSep sep (q :: t)

/-! ### Validation schemas (`apps/shared/src/validation.ts`) -/

/-- `interactionUidSchema` character allow-list: `[a-zA-Z0-9_-]`. -/
def isUidChar (c : Char) : Bool :=
  c.isAlpha || c.isDigit || c == '_' || c == '-'

/-- Embedding of `validateInteractionUid` / `interactionUidSchema`:
length 1..100 over the allow-listed character set. -/
def validateInteractionUid (uid : List Char) : Bool :=
  decide (1 ≤ uid.length) && decide (uid.length ≤ 100) && uid.all isUidChar

/-- Modelled from the spec: character class `[A-Za-z0-9_'+\-\.]` of the
local part of the `zod` library's `.email()` regular expression (the zod
implementation is library code, not under `src/`). -/
def isLocalChar (c : Char) : Bool :=
  c.isAlpha || c.isDigit || c == '_' || c == Char.ofNat 39 || c == '+' ||
    c == '-' || c == '.'

/-- Modelled from the spec: character class `[A-Za-z0-9_+-]` that the zod
e-mail regular expression requires for the final local-part character. -/
def isLocalEndChar (c : Char) : Bool :=
  c.isAlpha || c.isDigit || c == '_' || c == '+' || c == '-'

/-- Modelled from the spec: character class `[A-Za-z0-9-]` of domain-label
tail characters in the zod e-mail regular expression. -/
def isLabelChar (c : Char) : Bool :=
  c.isAlpha || c.isDigit || c == '-'

/-- Modelled from the spec: no `..` anywhere in the candidate e-mail
(the regular expression's `(?!.*\.\.)` lookahead). -/
def noDoubleDot : List Char → Bool
  | [] => true
  | [_] => true
  | a :: b :: rest => !(a == '.' && b == '.') && noDoubleDot (b :: rest)

/-- Modelled from the spec: the local part must be non-empty, must not start
with a dot (`(?!\.)`), all but its final character drawn from `isLocalChar`,
and its final character drawn from `isLocalEndChar`. -/
def localOk : List Char → Bool
  | [] => false
  | c0 :: rest =>
    !(c0 == '.') && ((c0 :: rest).dropLast.all isLocalChar) &&
      (match (c0 :: rest).getLast? with
       | some cl => isLocalEndChar cl
       | none => false)

/-- Modelled from the spec: one domain label `[A-Za-z0-9][A-Za-z0-9-]*`. -/
def labelOk : List Char → Bool
  | [] => false
  | c0 :: rest => (c0.isAlpha || c0.isDigit) && rest.all isLabelChar

/-- Modelled from the spec: the final domain segment `[A-Za-z]{2,}`. -/
def tldOk (p : List Char) : Bool :=
  decide (2 ≤ p.length) && p.all Char.isAlpha

/-- Modelled from the spec: the domain `([A-Za-z0-9][A-Za-z0-9-]*\.)+[A-Za-z]{2,}`
as the dot-separated list of labels followed by an alphabetic TLD. -/
def domainOk (d : List Char) : Bool :=
  match (splitOnChar '.' d).getLast? with
  | none => false
  | some tld =>
    decide (2 ≤ (splitOnChar '.' d).length) &&
      ((splitOnChar '.' d).dropLast.all labelOk) && tldOk tld

/-- Modelled from the spec: the `.email()` format check that `emailSchema`
applies before its transform; the zod library's default e-mail regular
expression `^(?!\.)(?!.*\.\.)([A-Za-z0-9_'+\-\.]*)[A-Za-z0-9_+-]@([A-Za-z0-9][A-Za-z0-9-]*\.)+[A-Za-z]{2,}$`
(library code, not under `src/`), decomposed at the unique `@`. -/
def zodEmailCheck (raw : List Char) : Bool :=
  match splitOnChar '@' raw with
  | [localSeg, domainSeg] => noDoubleDot raw && localOk localSeg && domainOk domainSeg
  | _ => false

/-- Embedding of `emailSchema`: length 1..254 and e-mail format checked on the
raw input, then the transform `val.toLowerCase().trim()`. -/
def emailSchemaRun (raw : List Char) : Option (List Char) :=
  if 1 ≤ raw.length ∧ raw.length ≤ 254 ∧ zodEmailCheck raw = true then
    some (trimChars (lowerChars raw))
  else
    none

/-- Embedding of `passwordSchema`: length 1..128, value passed through. -/
def passwordSchemaRun (raw : List Char) : Option (List Char) :=
  if 1 ≤ raw.length ∧ raw.length ≤ 128 then some raw else none

/-- Embedding of `loginSchema`: both fields must validate. -/
def loginSchemaRun (rawEmail rawPassword : List Char) :
    Option (List Char × List Char) :=
  match emailSchemaRun rawEmail, passwordSchemaRun rawPassword with
  | some email, some password => some (email, password)
  | _, _ => none

/-! ### Account store (`USERS`) and password comparison -/

/-- One record of the in-memory `USERS` map. -/
structure User where
  id : String
  email : String
  password : List Char
  name : String
  oauthAuthorized : Bool
deriving DecidableEq

/-- The in-memory user store `USERS`, keyed by e-mail. -/
def USERS : List (List Char × User) :=
  [ ("user@example.test".toList,
      { id := "user_123", email := "user@example.test",
        password := "passw0rd!".toList, name := "Dev User",
        oauthAuthorized := true }),
    ("blocked@example.test".toList,
      { id := "user_456", email := "blocked@example.test",
        password := "passw0rd!".toList, name := "Blocked User",
        oauthAuthorized := false }) ]

/-- `USERS.get(email)`. -/
def usersGet (email : List Char) : Option User :=
  (USERS.find? (fun p => p.1 == email)).map (fun p => p.2)

/-- Embedding of `secureComparePasswords`: pad both inputs with NUL to the
common maximum length, compare the padded buffers, and additionally require
equal original lengths.  `timingSafeEqual` on the two equal-length padded
buffers is plain byte equality (it throws only on buffers of unequal length,
which the padding rules out for the single-byte characters modelled here; the
surrounding `try/catch` returning `false` is therefore never taken). -/
def secureComparePasswords (provided stored : List Char) : Bool :=
  let maxLength := max provided.length stored.length
  let paddedProvided := padEnd provided maxLength (Char.ofNat 0)
  let paddedStored := padEnd stored maxLength (Char.ofNat 0)
  (paddedProvided == paddedStored) && (provided.length == stored.length)

/-! ### Client registry and refresh-token policy -/

/-- One validated client descriptor as loaded by `loadOIDCClients`
(`oidcClientSchema` plus the repository's optional `force_refresh_token`
extension, which defaults to absent/false). -/
structure OIDCClientConfig where
  client_id : String
  client_secret : String
  redirect_uris : List String
  grant_types : List String
  response_types : List String
  force_refresh_token : Bool := false
deriving DecidableEq

/-- Embedding of `FORCE_REFRESH_CLIENT_ID_SET`: the ids of the clients whose
`force_refresh_token` flag is set. -/
def forceRefreshClientIdSet (clients : List OIDCClientConfig) : List String :=
  (clients.filter (fun c => c.force_refresh_token)).map (fun c => c.client_id)

/-- The oidc-provider client object as the `issueRefreshToken` hook sees it:
its id and its registered grant types. -/
structure EngineClient where
  clientId : String
  grantTypes : List String
deriving DecidableEq

/-- The engine's `client.grantTypeAllowed(g)`: membership of `g` in the
client's registered `grant_types`. -/
def grantTypeAllowed (client : EngineClient) (g : String) : Bool :=
  decide (g ∈ client.grantTypes)

/-- Embedding of the `issueRefreshToken` configuration hook: refuse unless the
client supports the `refresh_token` grant; otherwise issue when
`offline_access` is among the code's scopes or the client id is in the
force-refresh set. -/
def issueRefreshToken (forceSet : List String) (client : EngineClient)
    (codeScopes : List String) : Bool :=
  if !(grantTypeAllowed client "refresh_token") then false
  else decide ("offline_access" ∈ codeScopes) || decide (client.clientId ∈ forceSet)

/-! ### Resource indicators -/

/-- Default of the `API_AUDIENCE` environment variable. -/
def API_AUDIENCE : String := "api://my-api"

/-- The object returned by the `getResourceServerInfo` hook. -/
structure ResourceServerInfo where
  scope : String
  audience : String
  accessTokenFormat : String
  accessTokenTTL : Nat
deriving DecidableEq

/-- Embedding of the `getResourceServerInfo` hook, an async callback that may
reject (`Except`): its body unconditionally returns one fixed configuration —
the full scope list, the configured `API_AUDIENCE` as audience, JWT format and
a one-hour TTL — for whatever `resourceIndicator` it is called with. -/
def getResourceServerInfo (apiAudience : String) (resourceIndicator : String) :
    Except String ResourceServerInfo :=
  Except.ok
    { scope := "openid profile email offline_access accounts:read"
    , audience := apiAudience
    , accessTokenFormat := "jwt"
    , accessTokenTTL := 60 * 60 }

/-! ### Error classification and OAuth error redirects -/

/-- `lower.includes(keyword)` over an already-lowercased message. -/
def includesKw (lower : List Char) (pat : String) : Bool :=
  hasSub pat.toList lower

/-- Embedding of `mapErrorToOAuthCode`: first-match keyword classification
over the lowercased error message. -/
def mapErrorToOAuthCode (errorMessage : String) : String × String :=
  let lower := lowerChars errorMessage.toList
  if includesKw lower "missing" || includesKw lower "required" then
    ("invalid_request", "The request is missing a required parameter.")
  else if includesKw lower "client" && includesKw lower "auth" then
    ("invalid_client", "Client authentication failed.")
  else if includesKw lower "grant" || includesKw lower "expired" || includesKw lower "revoked" then
    ("invalid_grant", errorMessage)
  else if includesKw lower "unauthorized" then
    ("unauthorized_client",
      "The authenticated client is not authorized to use this authorization grant type.")
  else if includesKw lower "grant type" || includesKw lower "unsupported" then
    ("unsupported_grant_type",
      "The authorization grant type is not supported by the authorization server.")
  else if includesKw lower "scope" then
    ("invalid_scope", "The requested scope is invalid, unknown, or malformed.")
  else
    ("invalid_request", errorMessage)

/-- A redirect URL: the client's `redirect_uri` plus appended query
parameters, kept structured. -/
structure OAuthRedirect where
  base : String
  query : List (String × String)
deriving DecidableEq

/-- Embedding of `redirectWithOAuthError`'s URL construction: append `error`,
then `error_description` only when it is truthy (provided and non-empty), then
`state` only when it is truthy (present and non-empty) — both guarded by the
same JavaScript `if (x)` truthiness idiom in the source. -/
def buildOAuthErrorUrl (redirectUri : String) (state : Option String)
    (errorCode : String) (errorDescription : Option String) : OAuthRedirect :=
  { base := redirectUri
  , query :=
      [("error", errorCode)]
        ++ (match errorDescription with
            | some d => if d = "" then [] else [("error_description", d)]
            | none => [])
        ++ (match state with
            | some s => if s = "" then [] else [("state", s)]
            | none => []) }

/-! ### Interaction handlers -/

/-- The parameters of an interaction that the handlers read from
`provider.interactionDetails`: `params.client_id`, `params.redirect_uri`,
`params.state` (possibly absent or empty) and `params.scope`. -/
structure InteractionDetails where
  clientId : String
  redirectUri : String
  state : Option String
  scope : String
deriving DecidableEq

/-- The observable responses an interaction handler can produce.  `unhandled`
records an exception escaping an async handler that has no `try/catch`
(Express 4 turns it into an unhandled promise rejection, not a response). -/
inductive HandlerResponse where
  | render (uid : List Char) (prompt : String) (scopes : List String)
      (error : Option String) (email : Option (List Char))
  | redirectTo (status : Nat) (location : String)
  | oauthErrorRedirect (status : Nat) (url : OAuthRedirect)
  | badRequest (message : String)
  | unhandled (error : String)
deriving DecidableEq

/-- `String(details.params.scope || "").split(" ").filter(Boolean)`. -/
def parseScopes (scope : String) : List String :=
  (scope.splitOn " ").filter (fun s => !(s == ""))

/-- Embedding of the `POST /interaction/:uid/login` handler's non-throwing
paths.  Engine effects are abstracted: `users` is the `USERS` lookup and
`nextRedirect` is the URL `provider.interactionResult` would return.  The
`Bool` component records whether a login result was submitted to the engine. -/
def postInteractionLogin (uidRaw : List Char) (rawEmail rawPassword : List Char)
    (users : List Char → Option User) (details : InteractionDetails)
    (nextRedirect : String) : HandlerResponse × Bool :=
  if !(validateInteractionUid uidRaw) then
    (.badRequest "Invalid interaction identifier", false)
  else
    match loginSchemaRun rawEmail rawPassword with
    | none =>
      (.render uidRaw "login" (parseScopes details.scope)
        (some "Invalid email or password format.") (some (rawEmail.take 254)), false)
    | some (email, password) =>
      match users email with
      | none =>
        (.render uidRaw "login" (parseScopes details.scope)
          (some "Invalid email or password. Please try again.") (some email), false)
      | some user =>
        if !(secureComparePasswords password user.password) then
          (.render uidRaw "login" (parseScopes details.scope)
            (some "Invalid email or password. Please try again.") (some email), false)
        else if !user.oauthAuthorized then
          (.oauthErrorRedirect 303
            (buildOAuthErrorUrl details.redirectUri details.state "unauthorized_client"
              (some "This account is not authorized to connect via OAuth.")), false)
        else
          (.redirectTo 303 nextRedirect, true)

/-- Embedding of the `catch` block shared by the `GET /interaction/:uid`,
login and confirm handlers: retry `provider.interactionDetails`; when that
succeeds, redirect with the classified OAuth error code; when it also fails,
degrade to a generic 400 with no internal detail. -/
def handleInteractionError (error : String)
    (retryDetails : Except String InteractionDetails) : HandlerResponse :=
  match retryDetails with
  | Except.ok details =>
    let mapped := mapErrorToOAuthCode error
    .oauthErrorRedirect 303
      (buildOAuthErrorUrl details.redirectUri details.state mapped.1 (some mapped.2))
  | Except.error _ => .badRequest "Invalid or expired interaction"

/-- Embedding of the `POST /interaction/:uid/cancel` handler.  Unlike the
other three interaction routes it has no `try/catch`, so a rejecting
`provider.interactionDetails` escapes the async handler (`unhandled`) instead
of being converted into a response. -/
def postInteractionCancel (uidRaw : List Char)
    (details : Except String InteractionDetails) : HandlerResponse :=
  if !(validateInteractionUid uidRaw) then
    .badRequest "Invalid interaction identifier"
  else
    match details with
    | Except.ok d =>
      .oauthErrorRedirect 303
        { base := d.redirectUri
        , query :=
            [("error", "access_denied")]
              ++ (match d.state with
                  | some s => if s = "" then [] else [("state", s)]
                  | none => []) }
    | Except.error e => .unhandled e

/-- The validated-login account lookup performed by the login handler: the
`loginSchema` e-mail result fed to `USERS.get`. -/
def loginLookup (rawEmail : List Char) (users : List Char → Option User) :
    Option User :=
  (emailSchemaRun rawEmail).bind users

/-! ### Grant accumulator -/

/-- Modelled from the spec: the oidc-provider `Grant` record (library code,
not under `src/`): accumulated OIDC scopes, accumulated OIDC claim names, and
a per-resource-indicator scope mapping, all with set-union semantics. -/
@[ext]
structure Grant where
  oidcScopes : Finset String
  oidcClaims : Finset String
  resources : String → Finset String

/-- A space-delimited scope string as a scope set. -/
def scopeTokens (s : String) : Finset String :=
  ((s.splitOn " ").filter (fun t => !(t == ""))).toFinset

/-- Modelled from the spec: `grant.addOIDCScope(scopeString)` unions in the
scopes of a space-delimited string. -/
def addOIDCScope (g : Grant) (scope : String) : Grant :=
  { g with oidcScopes := g.oidcScopes ∪ scopeTokens scope }

/-- Modelled from the spec: `grant.addOIDCClaims(claims)` unions in a list of
claim names. -/
def addOIDCClaims (g : Grant) (claims : List String) : Grant :=
  { g with oidcClaims := g.oidcClaims ∪ claims.toFinset }

/-- Modelled from the spec: `grant.addResourceScope(resourceIndicator, scopes)`
unions the scopes of a space-delimited string into that resource's entry. -/
def addResourceScope (g : Grant) (resourceIndicator : String) (scope : String) :
    Grant :=
  { g with resources := fun r =>
      if r = resourceIndicator then g.resources r ∪ scopeTokens scope
      else g.resources r }

/-- One grant-mutating call as performed by the consent (`confirm`) handler. -/
inductive GrantOp where
  | oidcScope (scope : String)
  | oidcClaims (claims : List String)
  | resourceScope (resourceIndicator : String) (scope : String)
deriving DecidableEq

/-- Apply one grant-mutating call. -/
def applyOp (g : Grant) : GrantOp → Grant
  | .oidcScope s => addOIDCScope g s
  | .oidcClaims cs => addOIDCClaims g cs
  | .resourceScope r s => addResourceScope g r s

/-- Apply a sequence of grant-mutating calls, as one consent submission does. -/
def applyOps (g : Grant) (ops : List GrantOp) : Grant :=
  ops.foldl applyOp g

/-- The OIDC-scope set contributed by one call. -/
def GrantOp.scopeContrib : GrantOp → Finset String
  | .oidcScope s => scopeTokens s
  | _ => ∅

/-- The OIDC-claim set contributed by one call. -/
def GrantOp.claimContrib : GrantOp → Finset String
  | .oidcClaims cs => cs.toFinset
  | _ => ∅

/-- The per-resource scope set contributed by one call. -/
def GrantOp.resourceContrib : GrantOp → String → Finset String
  | .resourceScope r s => fun r2 => if r2 = r then scopeTokens s else ∅
  | _ => fun _ => ∅

/-! ### Helper lemmas on the string primitives -/

theorem jsToLower_isWhitespace (c : Char) :
    (jsToLower c).isWhitespace = c.isWhitespace := by
  unfold jsToLower
  cases hfind : upperLower.find? (fun p => p.1 == c) with
  | none => rfl
  | some p =>
    have hmem := List.mem_of_find?_eq_some hfind
    have hbeq := List.find?_some hfind
    have hc : p.1 = c := by simpa using hbeq
    subst hc
    simp only [upperLower, List.mem_cons, List.not_mem_nil, or_false] at hmem
    rcases hmem with rfl|rfl|rfl|rfl|rfl|rfl|rfl|rfl|rfl|rfl|rfl|rfl|rfl|rfl|rfl|rfl|rfl|rfl|rfl|rfl|rfl|rfl|rfl|rfl|rfl|rfl <;> rfl

theorem splitOnChar_ne_nil (sep : Char) (l : List Char) : splitOnChar sep l ≠ [] := by
  cases l with
  | nil => simp [splitOnChar]
  | cons c rest =>
    rw [splitOnChar]
    by_cases h : c == sep
    · simp [h]
    · simp only [h]
      cases splitOnChar sep rest <;> simp

theorem joinSep_splitOnChar (sep : Char) (l : List Char) :
    joinSep sep (splitOnChar sep l) = l := by
  induction l with
  | nil => rfl
  | cons c rest ih =>
    rw [splitOnChar]
    by_cases h : c == sep
    · simp only [h, if_pos]
      rcases hr : splitOnChar sep rest with _ | ⟨r0, rt⟩
      · exact absurd hr (splitOnChar_ne_nil sep rest)
      · rw [hr] at ih
        have hstep : joinSep sep ([] :: r0 :: rt) = sep :: joinSep sep (r0 :: rt) := by
          rw [joinSep]
          rfl
        rw [hstep, ih]
        have hc : c = sep := by simpa using h
        rw [hc]
    · simp only [h, if_neg, Bool.false_eq_true, not_false_iff]
      rcases hr : splitOnChar sep rest with _ | ⟨h0, t0⟩
      · exact absurd hr (splitOnChar_ne_nil sep rest)
      · rw [hr] at ih
        cases t0 with
        | nil =>
          simp only [joinSep] at ih ⊢
          rw [ih]
        | cons t1 tt =>
          rw [joinSep] at ih ⊢
          rw [List.cons_append, ih]

theorem mem_joinSep {sep : Char} {parts : List (List Char)} {c : Char}
    (h : c ∈ joinSep sep parts) : c = sep ∨ ∃ p ∈ parts, c ∈ p := by
  induction parts with
  | nil => simp [joinSep] at h
  | cons p ps ih =>
    cases ps with
    | nil =>
      right
      exact ⟨p, by simp, by simpa [joinSep] using h⟩
    | cons q t =>
      rw [joinSep] at h
      rcases List.mem_append.mp h with h1 | h1
      · right; exact ⟨p, List.mem_cons_self _ _, h1⟩
      · rcases List.mem_cons.mp h1 with rfl | h2
        · left; rfl
        · rcases ih h2 with h3 | ⟨p2, hp2, hc2⟩
          · left; exact h3
          · right; exact ⟨p2, List.mem_cons_of_mem _ hp2, hc2⟩

theorem startsWith_append_left {l p q : List Char}
    (h : startsWith l (p ++ q) = true) : startsWith l p = true := by
  induction p generalizing l with
  | nil => cases l <;> rfl
  | cons b bs ih =>
    cases l with
    | nil => simp [startsWith] at h
    | cons a as =>
      rw [List.cons_append, startsWith] at h
      rw [startsWith]
      rcases Bool.and_eq_true_iff.mp h with ⟨h1, h2⟩
      rw [h1, ih h2]
      rfl

theorem hasSub_append_left {p q : List Char} (hay : List Char)
    (h : hasSub (p ++ q) hay = true) : hasSub p hay = true := by
  induction hay with
  | nil =>
    rw [hasSub] at h ⊢
    rcases List.append_eq_nil.mp (by simpa [List.isEmpty_iff] using h) with ⟨rfl, -⟩
    rfl
  | cons c rest ih =>
    rw [hasSub] at h ⊢
    rcases Bool.or_eq_true_iff.mp h with h1 | h1
    · rw [startsWith_append_left h1]
      rfl
    · rw [ih h1]
      simp

theorem mem_dropLast_or_getLast {α : Type} {l : List α} {x : α} (h : x ∈ l) :
    x ∈ l.dropLast ∨ l.getLast? = some x := by
  induction l with
  | nil => cases h
  | cons a t ih =>
    cases t with
    | nil =>
      right
      rcases List.mem_singleton.mp h with rfl
      rfl
    | cons b t2 =>
      rcases List.mem_cons.mp h with rfl | h2
      · left; simp
      · rcases ih h2 with h3 | h3
        · left
          rw [List.dropLast_cons₂]
          exact List.mem_cons_of_mem _ h3
        · right
          rw [List.getLast?_cons_cons]
          exact h3

theorem dropWhile_eq_self_of {p : Char → Bool} {l : List Char}
    (h : ∀ c ∈ l, p c = false) : l.dropWhile p = l := by
  cases l with
  | nil => rfl
  | cons a t =>
    rw [List.dropWhile_cons, h a (List.mem_cons_self _ _)]
    simp

theorem trimChars_eq_self {l : List Char} (h : ∀ c ∈ l, c.isWhitespace = false) :
    trimChars l = l := by
  unfold trimChars
  rw [dropWhile_eq_self_of h,
    dropWhile_eq_self_of (fun c hc => h c (List.mem_reverse.mp hc)),
    List.reverse_reverse]

/-! ### The e-mail format admits no whitespace -/

theorem isWhitespace_eq_false_of {p : Char → Bool} (hsp : p ' ' = false)
    (htab : p '\t' = false) (hcr : p '\r' = false) (hlf : p '\n' = false)
    {c : Char} (h : p c = true) : c.isWhitespace = false := by
  cases hw : c.isWhitespace
  · rfl
  · exfalso
    have hw2 : ((c = ' ' ∨ c = '\t') ∨ c = '\x0d') ∨ c = '\n' := by
      simpa [Char.isWhitespace] using hw
    rcases hw2 with ((rfl | rfl) | rfl) | rfl
    · rw [hsp] at h; exact Bool.false_ne_true h
    · rw [htab] at h; exact Bool.false_ne_true h
    · rw [hcr] at h; exact Bool.false_ne_true h
    · rw [hlf] at h; exact Bool.false_ne_true h

theorem localOk_no_ws {lp : List Char} (h : localOk lp = true) :
    ∀ c ∈ lp, c.isWhitespace = false := by
  intro c hc
  cases lp with
  | nil => cases hc
  | cons c0 rest =>
    rw [localOk] at h
    rcases Bool.and_eq_true_iff.mp h with ⟨h12, h3⟩
    rcases Bool.and_eq_true_iff.mp h12 with ⟨-, h2⟩
    rcases mem_dropLast_or_getLast hc with hmem | hlast
    · exact isWhitespace_eq_false_of (p := isLocalChar) (by decide) (by decide)
        (by decide) (by decide) (List.all_eq_true.mp h2 c hmem)
    · rw [hlast] at h3
      exact isWhitespace_eq_false_of (p := isLocalEndChar) (by decide) (by decide)
        (by decide) (by decide) h3

theorem labelOk_no_ws {lbl : List Char} (h : labelOk lbl = true) :
    ∀ c ∈ lbl, c.isWhitespace = false := by
  intro c hc
  cases lbl with
  | nil => cases hc
  | cons c0 rest =>
    rw [labelOk] at h
    rcases Bool.and_eq_true_iff.mp h with ⟨h1, h2⟩
    rcases List.mem_cons.mp hc with rfl | hc2
    · exact isWhitespace_eq_false_of (p := fun x => x.isAlpha || x.isDigit)
        (by decide) (by decide) (by decide) (by decide) h1
    · exact isWhitespace_eq_false_of (p := isLabelChar) (by decide) (by decide)
        (by decide) (by decide) (List.all_eq_true.mp h2 c hc2)

theorem domainOk_no_ws {dp : List Char} (h : domainOk dp = true) :
    ∀ c ∈ dp, c.isWhitespace = false := by
  intro c hc
  rw [domainOk] at h
  rcases hlast : (splitOnChar '.' dp).getLast? with _ | tld
  · rw [hlast] at h
    exact absurd h (by simp)
  · rw [hlast] at h
    rcases Bool.and_eq_true_iff.mp h with ⟨h12, htld⟩
    rcases Bool.and_eq_true_iff.mp h12 with ⟨-, hlabels⟩
    have hdp : dp = joinSep '.' (splitOnChar '.' dp) := (joinSep_splitOnChar '.' dp).symm
    rw [hdp] at hc
    rcases mem_joinSep hc with rfl | ⟨part, hpart, hcpart⟩
    · decide
    · rcases mem_dropLast_or_getLast hpart with hd | hl
      · exact labelOk_no_ws (List.all_eq_true.mp hlabels part hd) c hcpart
      · have hpt : part = tld := by
          rw [hl] at hlast
          exact Option.some.inj hlast
        subst hpt
        rcases Bool.and_eq_true_iff.mp htld with ⟨-, halpha⟩
        exact isWhitespace_eq_false_of (p := Char.isAlpha) (by decide) (by decide)
          (by decide) (by decide) (List.all_eq_true.mp halpha c hcpart)

theorem zodEmailCheck_decomp {raw : List Char} (h : zodEmailCheck raw = true) :
    ∃ lp dp, raw = lp ++ '@' :: dp ∧ localOk lp = true ∧ domainOk dp = true := by
  rw [zodEmailCheck] at h
  rcases hsplit : splitOnChar '@' raw with _ | ⟨lp, rest⟩
  · exact absurd hsplit (splitOnChar_ne_nil _ _)
  · rcases rest with _ | ⟨dp, rest2⟩
    · rw [hsplit] at h
      exact absurd h (by simp)
    · rcases rest2 with _ | ⟨x, xs⟩
      · rw [hsplit] at h
        rcases Bool.and_eq_true_iff.mp h with ⟨h12, hdom⟩
        rcases Bool.and_eq_true_iff.mp h12 with ⟨-, hloc⟩
        refine ⟨lp, dp, ?_, hloc, hdom⟩
        have hjoin := joinSep_splitOnChar '@' raw
        rw [hsplit] at hjoin
        simpa [joinSep] using hjoin.symm
      · rw [hsplit] at h
        exact absurd h (by simp)

theorem zodEmailCheck_no_ws {raw : List Char} (h : zodEmailCheck raw = true) :
    ∀ c ∈ raw, c.isWhitespace = false := by
  rcases zodEmailCheck_decomp h with ⟨lp, dp, rfl, hloc, hdom⟩
  intro c hc
  rcases List.mem_append.mp hc with hc1 | hc1
  · exact localOk_no_ws hloc c hc1
  · rcases List.mem_cons.mp hc1 with rfl | hc2
    · decide
    · exact domainOk_no_ws hdom c hc2

theorem zodEmailCheck_length_pos {raw : List Char} (h : zodEmailCheck raw = true) :
    1 ≤ raw.length := by
  rcases zodEmailCheck_decomp h with ⟨lp, dp, rfl, -, -⟩
  simp only [List.length_append, List.length_cons]
  omega

/-! ### Helper lemmas on the grant accumulator and redirect URLs -/

theorem applyOp_oidcScopes (g : Grant) (op : GrantOp) :
    (applyOp g op).oidcScopes = g.oidcScopes ∪ op.scopeContrib := by
  cases op <;>
    simp [applyOp, addOIDCScope, addOIDCClaims, addResourceScope, GrantOp.scopeContrib]

theorem applyOp_oidcClaims (g : Grant) (op : GrantOp) :
    (applyOp g op).oidcClaims = g.oidcClaims ∪ op.claimContrib := by
  cases op <;>
    simp [applyOp, addOIDCScope, addOIDCClaims, addResourceScope, GrantOp.claimContrib]

theorem applyOp_resources (g : Grant) (op : GrantOp) (r : String) :
    (applyOp g op).resources r = g.resources r ∪ op.resourceContrib r := by
  cases op with
  | oidcScope s =>
    simp [applyOp, addOIDCScope, GrantOp.resourceContrib]
  | oidcClaims cs =>
    simp [applyOp, addOIDCClaims, GrantOp.resourceContrib]
  | resourceScope ri s =>
    simp only [applyOp, addResourceScope, GrantOp.resourceContrib]
    by_cases h : r = ri <;> simp [h]

theorem mem_applyOps_scopes (ops : List GrantOp) (g : Grant) (x : String) :
    x ∈ (applyOps g ops).oidcScopes ↔
      x ∈ g.oidcScopes ∨ ∃ op ∈ ops, x ∈ op.scopeContrib := by
  induction ops generalizing g with
  | nil => simp [applyOps]
  | cons op rest ih =>
    have hstep : applyOps g (op :: rest) = applyOps (applyOp g op) rest := rfl
    rw [hstep, ih, applyOp_oidcScopes]
    simp only [Finset.mem_union, List.mem_cons]
    constructor
    · rintro ((h | h) | ⟨o, ho, hx⟩)
      · exact Or.inl h
      · exact Or.inr ⟨op, Or.inl rfl, h⟩
      · exact Or.inr ⟨o, Or.inr ho, hx⟩
    · rintro (h | ⟨o, rfl | ho, hx⟩)
      · exact Or.inl (Or.inl h)
      · exact Or.inl (Or.inr hx)
      · exact Or.inr ⟨o, ho, hx⟩

theorem mem_applyOps_claims (ops : List GrantOp) (g : Grant) (x : String) :
    x ∈ (applyOps g ops).oidcClaims ↔
      x ∈ g.oidcClaims ∨ ∃ op ∈ ops, x ∈ op.claimContrib := by
  induction ops generalizing g with
  | nil => simp [applyOps]
  | cons op rest ih =>
    have hstep : applyOps g (op :: rest) = applyOps (applyOp g op) rest := rfl
    rw [hstep, ih, applyOp_oidcClaims]
    simp only [Finset.mem_union, List.mem_cons]
    constructor
    · rintro ((h | h) | ⟨o, ho, hx⟩)
      · exact Or.inl h
      · exact Or.inr ⟨op, Or.inl rfl, h⟩
      · exact Or.inr ⟨o, Or.inr ho, hx⟩
    · rintro (h | ⟨o, rfl | ho, hx⟩)
      · exact Or.inl (Or.inl h)
      · exact Or.inl (Or.inr hx)
      · exact Or.inr ⟨o, ho, hx⟩

theorem mem_applyOps_resources (ops : List GrantOp) (g : Grant) (r : String) (x : String) :
    x ∈ (applyOps g ops).resources r ↔
      x ∈ g.resources r ∨ ∃ op ∈ ops, x ∈ op.resourceContrib r := by
  induction ops generalizing g with
  | nil => simp [applyOps]
  | cons op rest ih =>
    have hstep : applyOps g (op :: rest) = applyOps (applyOp g op) rest := rfl
    rw [hstep, ih, applyOp_resources]
    simp only [Finset.mem_union, List.mem_cons]
    constructor
    · rintro ((h | h) | ⟨o, ho, hx⟩)
      · exact Or.inl h
      · exact Or.inr ⟨op, Or.inl rfl, h⟩
      · exact Or.inr ⟨o, Or.inr ho, hx⟩
    · rintro (h | ⟨o, rfl | ho, hx⟩)
      · exact Or.inl (Or.inl h)
      · exact Or.inl (Or.inr hx)
      · exact Or.inr ⟨o, ho, hx⟩

theorem mem_truthy_segment (key : String) (x : Option String) (v : String) :
    ((key, v) ∈ (match x with
        | some s => if s = "" then ([] : List (String × String)) else [(key, s)]
        | none => [])) ↔ x = some v ∧ v ≠ "" := by
  cases x with
  | none => simp
  | some s =>
    by_cases hs : s = ""
    · subst hs
      simp only [if_pos]
      constructor
      · intro h
        cases h
      · rintro ⟨heq, hne⟩
        exact absurd (Option.some.inj heq).symm hne
    · simp only [if_neg hs, List.mem_singleton, Prod.mk.injEq, true_and,
        Option.some.injEq]
      constructor
      · rintro rfl
        exact ⟨rfl, hs⟩
      · rintro ⟨rfl, -⟩
        rfl

theorem not_mem_truthy_segment {k key : String} (hne : k ≠ key) (x : Option String)
    (v : String) :
    ¬ ((k, v) ∈ (match x with
        | some s => if s = "" then ([] : List (String × String)) else [(key, s)]
        | none => [])) := by
  cases x with
  | none => simp
  | some s => by_cases hs : s = "" <;> simp [hs, hne]

theorem buildOAuthErrorUrl_query_spec (redirectUri : String) (state : Option String)
    (errorCode : String) (errorDescription : Option String) :
    ("error", errorCode) ∈ (buildOAuthErrorUrl redirectUri state errorCode errorDescription).query
    ∧ (∀ d, ("error_description", d)
          ∈ (buildOAuthErrorUrl redirectUri state errorCode errorDescription).query
        ↔ errorDescription = some d ∧ d ≠ "")
    ∧ (∀ s, ("state", s)
          ∈ (buildOAuthErrorUrl redirectUri state errorCode errorDescription).query
        ↔ state = some s ∧ s ≠ "") := by
  refine ⟨?_, ?_, ?_⟩
  · simp [buildOAuthErrorUrl]
  · intro d
    simp only [buildOAuthErrorUrl, List.mem_append, List.mem_singleton]
    rw [mem_truthy_segment "error_description" errorDescription d]
    have h1 : ("error_description", d) ≠ ("error", errorCode) := by
      intro h
      have hfst := congrArg Prod.fst h
      simp at hfst
    have h3 := not_mem_truthy_segment
      (show "error_description" ≠ "state" by decide) state d
    simp [h1, h3]
  · intro s
    simp only [buildOAuthErrorUrl, List.mem_append, List.mem_singleton]
    rw [mem_truthy_segment "state" state s]
    have h1 : ("state", s) ≠ ("error", errorCode) := by
      intro h
      have hfst := congrArg Prod.fst h
      simp at hfst
    have h2 := not_mem_truthy_segment
      (show "state" ≠ "error_description" by decide) errorDescription s
    simp [h1, h2]

/-! ### The claims -/

/-- C1: for every token request, `issueRefreshToken` returns `true` exactly when
the client's registered grant types include `refresh_token` and either
`offline_access` is among the authorization code's scopes or the client id is
in the force-refresh set extracted at startup; in particular, a client without
`refresh_token` in its grant types never receives a refresh token, regardless
of scopes or the force flag. -/
theorem issueRefreshToken_decision :
    (∀ (clients : List OIDCClientConfig) (client : EngineClient)
        (codeScopes : List String),
      issueRefreshToken (forceRefreshClientIdSet clients) client codeScopes = true ↔
        ("refresh_token" ∈ client.grantTypes ∧
          ("offline_access" ∈ codeScopes ∨
            client.clientId ∈ forceRefreshClientIdSet clients)))
    ∧ (∀ (forceSet : List String) (client : EngineClient) (codeScopes : List String),
        "refresh_token" ∉ client.grantTypes →
          issueRefreshToken forceSet client codeScopes = false) := by
  constructor
  · intro clients client codeScopes
    by_cases h : "refresh_token" ∈ client.grantTypes <;>
      simp [issueRefreshToken, grantTypeAllowed, h]
  · intro forceSet client codeScopes h
    simp [issueRefreshToken, grantTypeAllowed, h]

/-- Witness for C1: a client without the `refresh_token` grant type is refused
even though `offline_access` was requested. -/
theorem issueRefreshToken_decision_witness :
    issueRefreshToken []
      { clientId := "dev-rp", grantTypes := ["authorization_code"] }
      ["offline_access"] = false :=
  issueRefreshToken_decision.2 []
    { clientId := "dev-rp", grantTypes := ["authorization_code"] }
    ["offline_access"] (by decide)

/-- C2 counterexample: `getResourceServerInfo` called with the resource
indicator `https://other.example` returns a configuration whose `audience` is
the fixed `API_AUDIENCE`, not that indicator — refuting the claim that the
returned configuration for indicator `r` has audience `r`. -/
theorem getResourceServerInfo_audience_ce :
    ∃ cfg, getResourceServerInfo API_AUDIENCE "https://other.example" = Except.ok cfg
      ∧ cfg.audience ≠ "https://other.example" :=
  ⟨_, rfl, by decide⟩

/-- C2 (amended): for every supplied resource indicator the returned
resource-server configuration is a signed-JWT configuration whose `aud` is the
fixed configured `API_AUDIENCE` (equal to the indicator only when the
indicator is `API_AUDIENCE` itself), with a fixed one-hour TTL. -/
theorem getResourceServerInfo_fixed_audience :
    ∀ (apiAudience resourceIndicator : String),
      ∃ cfg, getResourceServerInfo apiAudience resourceIndicator = Except.ok cfg
        ∧ cfg.audience = apiAudience ∧ cfg.accessTokenFormat = "jwt"
        ∧ cfg.accessTokenTTL = 60 * 60 :=
  fun _ _ => ⟨_, rfl, rfl, rfl, rfl⟩

/-- C3 counterexample: the indicator `https://unknown.example`, different from
the only configured resource (`API_AUDIENCE`), is still accepted: the hook
returns a configuration instead of failing the request. -/
theorem getResourceServerInfo_unknown_accepted_ce :
    "https://unknown.example" ≠ API_AUDIENCE
      ∧ ∃ cfg, getResourceServerInfo API_AUDIENCE "https://unknown.example"
          = Except.ok cfg :=
  ⟨by decide, _, rfl⟩

/-- C3 (amended): `getResourceServerInfo` performs no registry lookup at all —
every resource indicator, known or unknown, is accepted and receives the same
fixed configuration (full scope list, `API_AUDIENCE` audience, `jwt` format,
one-hour TTL); the request never fails at this hook. -/
theorem getResourceServerInfo_accepts_all :
    ∀ (apiAudience resourceIndicator : String),
      getResourceServerInfo apiAudience resourceIndicator
        = Except.ok
            { scope := "openid profile email offline_access accounts:read"
            , audience := apiAudience
            , accessTokenFormat := "jwt"
            , accessTokenTTL := 60 * 60 } :=
  fun _ _ => rfl

/-- C4: `secureComparePasswords` returns `true` exactly when the padded
constant-time comparison succeeds and the original lengths agree, i.e. exactly
when the two strings are equal; in particular the four concrete cases of the
spec evaluate as stated. -/
theorem secureComparePasswords_correct :
    (∀ provided stored : List Char,
      secureComparePasswords provided stored = true ↔ provided = stored)
    ∧ secureComparePasswords "passw0rd!".toList "passw0rd!".toList = true
    ∧ secureComparePasswords "passw0rd!".toList "passw0rX!".toList = false
    ∧ secureComparePasswords "short".toList "passw0rd!".toList = false
    ∧ secureComparePasswords "".toList "passw0rd!".toList = false := by
  refine ⟨fun provided stored => ?_, by decide, by decide, by decide, by decide⟩
  unfold secureComparePasswords padEnd
  simp only [Bool.and_eq_true, beq_iff_eq]
  constructor
  · rintro ⟨hpad, hlen⟩
    rwa [hlen, Nat.max_self, Nat.sub_self, List.replicate_zero, List.append_nil,
      List.append_nil] at hpad
  · rintro rfl
    exact ⟨rfl, rfl⟩

/-- C6 counterexample: an error message containing `grant type` is classified
as `invalid_grant`, not `unsupported_grant_type`, because the earlier `grant`
keyword check matches first. -/
theorem mapErrorToOAuthCode_grant_type_ce :
    (mapErrorToOAuthCode "grant type").1 = "invalid_grant"
    ∧ "invalid_grant" ≠ "unsupported_grant_type" := by
  exact ⟨by decide, by decide⟩

/-- C6 (amended): the classification is first-match in the listed order.  Any
message containing `grant type` also contains `grant`, so the `grant type`
branch is unreachable; a message containing `unsupported` (and none of the
earlier keywords `missing`, `required`, `client`+`auth`, `grant`, `expired`,
`revoked`, `unauthorized`) maps to `unsupported_grant_type`, while every
message containing `grant` (absent the still-earlier keywords) maps to
`invalid_grant`. -/
theorem mapErrorToOAuthCode_keyword_order :
    (∀ l : List Char, includesKw l "grant type" = true → includesKw l "grant" = true)
    ∧ (∀ msg : String,
        includesKw (lowerChars msg.toList) "unsupported" = true →
        includesKw (lowerChars msg.toList) "missing" = false →
        includesKw (lowerChars msg.toList) "required" = false →
        (includesKw (lowerChars msg.toList) "client"
          && includesKw (lowerChars msg.toList) "auth") = false →
        includesKw (lowerChars msg.toList) "grant" = false →
        includesKw (lowerChars msg.toList) "expired" = false →
        includesKw (lowerChars msg.toList) "revoked" = false →
        includesKw (lowerChars msg.toList) "unauthorized" = false →
        (mapErrorToOAuthCode msg).1 = "unsupported_grant_type")
    ∧ (∀ msg : String,
        includesKw (lowerChars msg.toList) "grant" = true →
        includesKw (lowerChars msg.toList) "missing" = false →
        includesKw (lowerChars msg.toList) "required" = false →
        (includesKw (lowerChars msg.toList) "client"
          && includesKw (lowerChars msg.toList) "auth") = false →
        (mapErrorToOAuthCode msg).1 = "invalid_grant") := by
  refine ⟨?_, ?_, ?_⟩
  · intro l h
    have hsplit : ("grant".toList ++ " type".toList) = "grant type".toList := by decide
    unfold includesKw at h ⊢
    rw [← hsplit] at h
    exact hasSub_append_left l h
  · intro msg h1 h2 h3 h4 h5 h6 h7 h8
    have h4p : includesKw (lowerChars msg.toList) "client" = false
        ∨ includesKw (lowerChars msg.toList) "auth" = false := by
      cases hcl : includesKw (lowerChars msg.toList) "client"
      · exact Or.inl rfl
      · cases hau : includesKw (lowerChars msg.toList) "auth"
        · exact Or.inr rfl
        · rw [hcl, hau] at h4
          exact absurd h4 (by decide)
    simp only [String.toList] at h1 h2 h3 h5 h6 h7 h8 h4p
    rcases h4p with h4p | h4p <;>
      simp [mapErrorToOAuthCode, String.toList, h1, h2, h3, h5, h6, h7, h8, h4p]
  · intro msg h1 h2 h3 h4
    have h4p : includesKw (lowerChars msg.toList) "client" = false
        ∨ includesKw (lowerChars msg.toList) "auth" = false := by
      cases hcl : includesKw (lowerChars msg.toList) "client"
      · exact Or.inl rfl
      · cases hau : includesKw (lowerChars msg.toList) "auth"
        · exact Or.inr rfl
        · rw [hcl, hau] at h4
          exact absurd h4 (by decide)
    simp only [String.toList] at h1 h2 h3 h4p
    rcases h4p with h4p | h4p <;>
      simp [mapErrorToOAuthCode, String.toList, h1, h2, h3, h4p]

/-- Witness for C6 (amended): `unsupported operation` maps to
`unsupported_grant_type` and `xx grant type yy` maps to `invalid_grant`. -/
theorem mapErrorToOAuthCode_keyword_order_witness :
    (mapErrorToOAuthCode "unsupported operation").1 = "unsupported_grant_type"
    ∧ (mapErrorToOAuthCode "xx grant type yy").1 = "invalid_grant" :=
  ⟨mapErrorToOAuthCode_keyword_order.2.1 "unsupported operation" (by decide) (by decide)
      (by decide) (by decide) (by decide) (by decide) (by decide) (by decide),
    mapErrorToOAuthCode_keyword_order.2.2 "xx grant type yy"
      (mapErrorToOAuthCode_keyword_order.1 _ (by decide)) (by decide) (by decide) (by decide)⟩

/-- C7: the shared catch block of the GET/login/confirm handlers recovers a
failed operation into an OAuth error redirect when `interactionDetails` can be
re-read and into a generic 400 otherwise — but the cancel handler has no
try/catch at all, so at the failing input (an expired/unknown interaction,
where `interactionDetails` rejects) the rejection escapes the handler
unhandled instead of degrading to the generic 400 the claim requires. -/
theorem cancel_handler_no_recovery :
    postInteractionCancel "abc123".toList (Except.error "interaction session not found")
        = HandlerResponse.unhandled "interaction session not found"
    ∧ handleInteractionError "interaction session not found"
        (Except.error "interaction session not found")
        = HandlerResponse.badRequest "Invalid or expired interaction"
    ∧ (∀ d : InteractionDetails, ∃ q,
        handleInteractionError "interaction session not found" (Except.ok d)
          = HandlerResponse.oauthErrorRedirect 303 { base := d.redirectUri, query := q }) := by
  refine ⟨by decide, rfl, fun d => ⟨_, rfl⟩⟩

/-- C10 (amended): in every OAuth error redirect built by this server — the
`redirectWithOAuthError` helper and the cancel route — the `error` parameter
is always appended, while `error_description` and `state` are each appended
exactly when they are provided and non-empty: a provided-but-empty
`error_description`, like an empty or absent `state`, yields no such
parameter. -/
theorem oauth_error_redirect_state_policy :
    (∀ (redirectUri : String) (state : Option String) (errorCode : String)
        (errorDescription : Option String),
      ("error", errorCode)
          ∈ (buildOAuthErrorUrl redirectUri state errorCode errorDescription).query
      ∧ (∀ d, ("error_description", d)
            ∈ (buildOAuthErrorUrl redirectUri state errorCode errorDescription).query
          ↔ errorDescription = some d ∧ d ≠ "")
      ∧ (∀ s, ("state", s)
            ∈ (buildOAuthErrorUrl redirectUri state errorCode errorDescription).query
          ↔ state = some s ∧ s ≠ ""))
    ∧ (∀ (uidRaw : List Char) (d : InteractionDetails),
        validateInteractionUid uidRaw = true →
        ∃ q, postInteractionCancel uidRaw (Except.ok d)
            = HandlerResponse.oauthErrorRedirect 303 { base := d.redirectUri, query := q }
          ∧ ("error", "access_denied") ∈ q
          ∧ (∀ s, ("state", s) ∈ q ↔ d.state = some s ∧ s ≠ "")) := by
  constructor
  · exact buildOAuthErrorUrl_query_spec
  · intro uidRaw d huid
    unfold postInteractionCancel
    rw [huid]
    refine ⟨_, rfl, ?_, ?_⟩
    · simp
    · intro s
      cases hst : d.state with
      | none => simp
      | some st =>
        by_cases h0 : st = ""
        · subst h0
          simp [eq_comm]
        · simp only [h0]
          simp [h0]
          constructor
          · rintro rfl
            exact ⟨rfl, h0⟩
          · rintro ⟨rfl, -⟩
            rfl

/-- C10 counterexample: a provided-but-empty `error_description` — producible,
since `mapErrorToOAuthCode` echoes the raw error message, which can be empty —
is dropped by the truthiness guard rather than appended. -/
theorem oauth_error_description_dropped_ce :
    (buildOAuthErrorUrl "https://app.example/callback" none "invalid_request"
        (some "")).query
      = [("error", "invalid_request")]
    ∧ ("error_description", "")
        ∉ (buildOAuthErrorUrl "https://app.example/callback" none "invalid_request"
            (some "")).query
    ∧ (mapErrorToOAuthCode "").2 = "" := by
  exact ⟨by decide, by decide, by decide⟩

/-- Witness for C10: a cancel of a pending interaction with state `xyz`
yields the `access_denied` redirect whose query satisfies the stated
membership properties. -/
theorem oauth_error_redirect_state_policy_witness :
    ∃ q, postInteractionCancel "abc123".toList
          (Except.ok
            { clientId := "dev-rp",
              redirectUri := "https://app.example/callback",
              state := some "xyz", scope := "openid" })
        = HandlerResponse.oauthErrorRedirect 303
            { base := "https://app.example/callback", query := q }
      ∧ ("error", "access_denied") ∈ q
      ∧ (∀ s, ("state", s) ∈ q ↔
          ({ clientId := "dev-rp", redirectUri := "https://app.example/callback",
             state := some "xyz", scope := "openid" } : InteractionDetails).state
              = some s ∧ s ≠ "") :=
  oauth_error_redirect_state_policy.2 "abc123".toList
    { clientId := "dev-rp", redirectUri := "https://app.example/callback",
      state := some "xyz", scope := "openid" } (by decide)

/-- C5 (amended): a login whose credentials match a stored account with
`oauth_authorized = false` never proceeds — no login result is submitted to
the engine — and responds with a 303 OAuth error redirect to the client's
`redirect_uri` carrying `error=unauthorized_client`, with the original state
echoed exactly whenever it is a non-empty string (an empty or absent state
yields no `state` parameter). -/
theorem login_unauthorized_redirect (uidRaw rawEmail rawPassword : List Char)
    (users : List Char → Option User) (details : InteractionDetails)
    (nextRedirect : String) (email password : List Char) (user : User)
    (huid : validateInteractionUid uidRaw = true)
    (hschema : loginSchemaRun rawEmail rawPassword = some (email, password))
    (huser : users email = some user)
    (hpw : secureComparePasswords password user.password = true)
    (hauth : user.oauthAuthorized = false) :
    ∃ q,
      postInteractionLogin uidRaw rawEmail rawPassword users details nextRedirect
        = (HandlerResponse.oauthErrorRedirect 303
            { base := details.redirectUri, query := q }, false)
      ∧ ("error", "unauthorized_client") ∈ q
      ∧ (∀ s, ("state", s) ∈ q ↔ details.state = some s ∧ s ≠ "") := by
  unfold postInteractionLogin
  simp only [huid, hschema, huser, hpw, hauth, Bool.not_true, Bool.not_false,
    Bool.false_eq_true, if_true, if_false]
  exact ⟨_, rfl,
    (buildOAuthErrorUrl_query_spec details.redirectUri details.state
      "unauthorized_client" (some "This account is not authorized to connect via OAuth.")).1,
    (buildOAuthErrorUrl_query_spec details.redirectUri details.state
      "unauthorized_client" (some "This account is not authorized to connect via OAuth.")).2.2⟩

/-- Witness for C5 (amended): the blocked demo account with state `xyz`. -/
theorem login_unauthorized_redirect_witness :
    ∃ q,
      postInteractionLogin "uid123".toList "blocked@example.test".toList
          "passw0rd!".toList usersGet
          { clientId := "dev-rp", redirectUri := "https://app.example/callback",
            state := some "xyz", scope := "openid" }
          "https://next.example"
        = (HandlerResponse.oauthErrorRedirect 303
            { base := "https://app.example/callback", query := q }, false)
      ∧ ("error", "unauthorized_client") ∈ q
      ∧ (∀ s, ("state", s) ∈ q ↔ (some "xyz" : Option String) = some s ∧ s ≠ "") :=
  login_unauthorized_redirect "uid123".toList "blocked@example.test".toList
    "passw0rd!".toList usersGet
    { clientId := "dev-rp", redirectUri := "https://app.example/callback",
      state := some "xyz", scope := "openid" }
    "https://next.example" "blocked@example.test".toList "passw0rd!".toList
    { id := "user_456", email := "blocked@example.test",
      password := "passw0rd!".toList, name := "Blocked User",
      oauthAuthorized := false }
    (by decide) (by decide) (by decide) (by decide) (by decide)

/-- C5 counterexample: with original state `""` the `unauthorized_client`
redirect carries no `state` parameter at all, so the state is not echoed
exactly as the claim as stated requires. -/
theorem login_unauthorized_empty_state_ce :
    (postInteractionLogin "uid123".toList "blocked@example.test".toList
        "passw0rd!".toList usersGet
        { clientId := "dev-rp", redirectUri := "https://app.example/callback",
          state := some "", scope := "openid" }
        "https://next.example").1
      = HandlerResponse.oauthErrorRedirect 303
          { base := "https://app.example/callback"
          , query := [("error", "unauthorized_client"),
              ("error_description",
                "This account is not authorized to connect via OAuth.")] }
    ∧ ("state", "")
        ∉ [("error", "unauthorized_client"),
            ("error_description",
              "This account is not authorized to connect via OAuth.")] := by
  exact ⟨by decide, by decide⟩

/-- C8: over any sequence of `addOIDCScope`/`addOIDCClaims`/`addResourceScope`
calls in one consent submission, the resulting grant's OIDC-scope set,
OIDC-claim set and per-resource scope sets are exactly the initial sets
unioned with every individually added set; the result is invariant under
permutation of the calls, and repeating a call is a no-op (nothing is ever
removed). -/
theorem grant_accumulation_spec :
    (∀ (g : Grant) (ops : List GrantOp),
      (∀ x, x ∈ (applyOps g ops).oidcScopes ↔
        x ∈ g.oidcScopes ∨ ∃ op ∈ ops, x ∈ op.scopeContrib)
      ∧ (∀ x, x ∈ (applyOps g ops).oidcClaims ↔
        x ∈ g.oidcClaims ∨ ∃ op ∈ ops, x ∈ op.claimContrib)
      ∧ (∀ r x, x ∈ (applyOps g ops).resources r ↔
        x ∈ g.resources r ∨ ∃ op ∈ ops, x ∈ op.resourceContrib r))
    ∧ (∀ (g : Grant) (ops ops2 : List GrantOp), ops.Perm ops2 →
        applyOps g ops = applyOps g ops2)
    ∧ (∀ (g : Grant) (op : GrantOp), applyOp (applyOp g op) op = applyOp g op) := by
  refine ⟨fun g ops =>
      ⟨fun x => mem_applyOps_scopes ops g x,
        fun x => mem_applyOps_claims ops g x,
        fun r x => mem_applyOps_resources ops g r x⟩, ?_, ?_⟩
  · intro g ops ops2 hperm
    have hex : ∀ (P : GrantOp → Prop), (∃ op ∈ ops, P op) ↔ ∃ op ∈ ops2, P op := by
      intro P
      constructor
      · rintro ⟨op, hop, hP⟩; exact ⟨op, hperm.mem_iff.mp hop, hP⟩
      · rintro ⟨op, hop, hP⟩; exact ⟨op, hperm.mem_iff.mpr hop, hP⟩
    apply Grant.ext
    · apply Finset.ext; intro x
      rw [mem_applyOps_scopes, mem_applyOps_scopes]
      exact or_congr_right (hex _)
    · apply Finset.ext; intro x
      rw [mem_applyOps_claims, mem_applyOps_claims]
      exact or_congr_right (hex _)
    · funext r
      apply Finset.ext; intro x
      rw [mem_applyOps_resources, mem_applyOps_resources]
      exact or_congr_right (hex _)
  · intro g op
    apply Grant.ext
    · rw [applyOp_oidcScopes, applyOp_oidcScopes, Finset.union_assoc, Finset.union_self]
    · rw [applyOp_oidcClaims, applyOp_oidcClaims, Finset.union_assoc, Finset.union_self]
    · funext r
      rw [applyOp_resources, applyOp_resources, Finset.union_assoc, Finset.union_self]

/-- Witness for C8: two concrete call orders produce the same grant. -/
theorem grant_accumulation_spec_witness :
    applyOps { oidcScopes := ∅, oidcClaims := ∅, resources := fun _ => ∅ }
        [GrantOp.oidcScope "openid profile", GrantOp.oidcClaims ["email"]]
      = applyOps { oidcScopes := ∅, oidcClaims := ∅, resources := fun _ => ∅ }
        [GrantOp.oidcClaims ["email"], GrantOp.oidcScope "openid profile"] :=
  grant_accumulation_spec.2.1
    { oidcScopes := ∅, oidcClaims := ∅, resources := fun _ => ∅ }
    [GrantOp.oidcScope "openid profile", GrantOp.oidcClaims ["email"]]
    [GrantOp.oidcClaims ["email"], GrantOp.oidcScope "openid profile"]
    (by decide)

/-- C9 counterexample: an e-mail differing from a stored key only by
surrounding whitespace fails the format validation (which admits no
whitespace) and never reaches the account lookup, even though its trimmed
lowercase form is a stored key. -/
theorem email_whitespace_rejected_ce :
    emailSchemaRun " user@example.test ".toList = none
    ∧ loginLookup " user@example.test ".toList usersGet = none
    ∧ usersGet "user@example.test".toList ≠ none
    ∧ trimChars (lowerChars " user@example.test ".toList) = "user@example.test".toList := by
  exact ⟨by decide, by decide, by decide, by decide⟩

/-- C9 (amended): the login e-mail is validated first and only then lowercased;
because the e-mail format admits no whitespace, the trim of the transform is
inert, and the account lookup runs on the lowercased raw e-mail — so matching
is case-insensitive but not whitespace-insensitive. -/
theorem email_lookup_lowercases (rawEmail : List Char)
    (users : List Char → Option User)
    (hformat : zodEmailCheck rawEmail = true)
    (hlen : rawEmail.length ≤ 254) :
    loginLookup rawEmail users = users (lowerChars rawEmail) := by
  have hnows := zodEmailCheck_no_ws hformat
  have hlower : ∀ c ∈ lowerChars rawEmail, c.isWhitespace = false := by
    intro c hc
    rcases List.mem_map.mp hc with ⟨c0, hc0, rfl⟩
    rw [jsToLower_isWhitespace]
    exact hnows c0 hc0
  unfold loginLookup emailSchemaRun
  rw [if_pos ⟨zodEmailCheck_length_pos hformat, hlen, hformat⟩]
  rw [trimChars_eq_self hlower]
  rfl

/-- Witness for C9 (amended): `User@Example.Test` authenticates against the
stored lowercase key. -/
theorem email_lookup_lowercases_witness :
    loginLookup "User@Example.Test".toList usersGet
        = usersGet (lowerChars "User@Example.Test".toList)
    ∧ usersGet (lowerChars "User@Example.Test".toList)
        = usersGet "user@example.test".toList :=
  ⟨email_lookup_lowercases "User@Example.Test".toList usersGet (by decide) (by decide),
    by decide⟩

end CoreExchange
